import Mathlib

/-!
Shallow embedding of the GE2E similarity/loss core of `utils.py` from the
Voice-Conversion repository: centroid calculators, the similarity-matrix
builder, and the two loss reductions, together with the second (independent)
pipeline `get_centroids` / `get_utterance_centroids` / `get_cossim`.

Tensors of shape (N, M, D) are modelled as functions `Fin N → Fin M → Fin D → ℝ`.
PyTorch's `F.cosine_similarity` is modelled with its documented epsilon clamp
`x·y / max(‖x‖‖y‖, 1e-8)`.  The in-place indexed assignment in
`combine_similarity` (`similarity[idx, :, idx] = ...; return similarity`) is
modelled by explicit state passing: `combine_similarity_state` returns the
pair (returned tensor, final contents of the argument buffer), both of which
are the updated tensor, since the Python function mutates its argument and
returns that same object.
-/

namespace VCUtils

noncomputable section

/-- Embedding vector of dimension D. -/
abbrev Emb (D : ℕ) := Fin D → ℝ

/-- Tensor of shape (N, M, D): N speakers, M utterances, D features. -/
abbrev Tensor3 (N M D : ℕ) := Fin N → Fin M → Emb D

/-- Tensor of shape (N, D): one centroid per speaker. -/
abbrev Tensor2 (N D : ℕ) := Fin N → Emb D

/-- Similarity tensor of shape (N, M, N). -/
abbrev Sim (N M : ℕ) := Fin N → Fin M → Fin N → ℝ

/-- Dot product of two D-dimensional vectors. -/
def dotp {D : ℕ} (u v : Emb D) : ℝ := ∑ d, u d * v d

/-- Euclidean norm of a D-dimensional vector. -/
def l2norm {D : ℕ} (u : Emb D) : ℝ := Real.sqrt (dotp u u)

/-- Epsilon used by `F.cosine_similarity` (PyTorch default eps = 1e-8). -/
def cosEps : ℝ := 1 / 10 ^ 8

/-- Additive epsilon 1e-6 used in `get_softmax_loss` and `get_cossim`. -/
def eps1e6 : ℝ := 1 / 10 ^ 6

/-- PyTorch `F.cosine_similarity` along the feature axis:
`x·y / max(‖x‖‖y‖, eps)`. -/
def cosineSim {D : ℕ} (u v : Emb D) : ℝ :=
  dotp u v / max (l2norm u * l2norm v) cosEps

/-- Logistic sigmoid, written in the source as `1 / (1 + torch.exp(-x))`. -/
def sigmoidR (x : ℝ) : ℝ := 1 / (1 + Real.exp (-x))

/-- torch.max along a dimension of size N (the source only uses it on
non-empty dimensions; for N = 0 we return a junk value 0). -/
def torchMax {N : ℕ} (f : Fin N → ℝ) : ℝ :=
  if h : 0 < N then Finset.univ.sup' ⟨⟨0, h⟩, Finset.mem_univ _⟩ f else 0

/-- `calculate_centroid_include_self`: `torch.mean(embedding, dim=1)`,
shape (N, M, D) → (N, D). -/
def calculate_centroid_include_self {N M D : ℕ} (embedding : Tensor3 N M D) :
    Tensor2 N D :=
  fun n d => (∑ m, embedding n m d) / (M : ℝ)

/-- `calculate_centroid_exclude_self`:
`(torch.sum(embedding, dim=1, keepdim=True) - embedding) / (M - 1)`,
shape (N, M, D) → (N, M, D).  `M - 1` is a Python int, hence `(M : ℝ) - 1`. -/
def calculate_centroid_exclude_self {N M D : ℕ} (embedding : Tensor3 N M D) :
    Tensor3 N M D :=
  fun n m d => ((∑ mp, embedding n mp d) - embedding n m d) / ((M : ℝ) - 1)

/-- `calculate_similarity`: expands the (N, D) centroids to (N, M, N, D),
unsqueezes the embeddings to (N, M, 1, D) and takes cosine similarity along
the feature axis, giving S[n, m, k] = cos(embedding[n, m], centroid[k]). -/
def calculate_similarity {N M D : ℕ} (embedding : Tensor3 N M D)
    (centroid_embedding : Tensor2 N D) : Sim N M :=
  fun n m k => cosineSim (embedding n m) (centroid_embedding k)

/-- `calculate_similarity_j_equal_k`: elementwise cosine similarity along the
feature axis between embedding (N, M, D) and centroid (N, M, D). -/
def calculate_similarity_j_equal_k {N M D : ℕ} (embedding : Tensor3 N M D)
    (centroid_embedding : Tensor3 N M D) : Fin N → Fin M → ℝ :=
  fun n m => cosineSim (embedding n m) (centroid_embedding n m)

/-- `combine_similarity`: `similarity[same_index, :, same_index] =
similarity_j_equal_k[same_index, :]` — entry [j, i, k] keeps the old value
for k ≠ j and takes the diagonal value for k = j.  This is the value of the
tensor the Python function returns. -/
def combine_similarity {N M : ℕ} (similarity : Sim N M)
    (similarity_j_equal_k : Fin N → Fin M → ℝ) : Sim N M :=
  fun j i k => if k = j then similarity_j_equal_k j i else similarity j i k

/-- State-passing view of `combine_similarity`: the Python body performs an
in-place indexed assignment on the argument tensor and then returns that same
object, so the result of the call and the post-call contents of the caller's
tensor are one and the same updated tensor. -/
def combine_similarity_state {N M : ℕ} (similarity : Sim N M)
    (similarity_j_equal_k : Fin N → Fin M → ℝ) : Sim N M × Sim N M :=
  (combine_similarity similarity similarity_j_equal_k,
   combine_similarity similarity similarity_j_equal_k)

/-- `get_similarity`: both centroid variants, the two similarity primitives,
and the diagonal combination. -/
def get_similarity {N M D : ℕ} (embedding : Tensor3 N M D) : Sim N M :=
  combine_similarity
    (calculate_similarity embedding (calculate_centroid_include_self embedding))
    (calculate_similarity_j_equal_k embedding
      (calculate_centroid_exclude_self embedding))

/-- `get_similarity_eva`: include-self centroids of the enrollment embeddings
against the evaluation embeddings; no diagonal correction. -/
def get_similarity_eva {N M1 M2 D : ℕ} (enrollment_embedding : Tensor3 N M1 D)
    (evaluation_embedding : Tensor3 N M2 D) : Fin N → Fin M2 → Fin N → ℝ :=
  calculate_similarity evaluation_embedding
    (calculate_centroid_include_self enrollment_embedding)

/-- `get_contrast_loss`: `loss_1 = Σ (1 - sigmoid[diag])`, then the diagonal
of the sigmoid tensor is zeroed, and `loss_2 = Σ max_k sigmoid[n, m, k]`. -/
def get_contrast_loss {N M : ℕ} (similarity : Sim N M) : ℝ :=
  let sigmoid : Sim N M := fun n m k => sigmoidR (similarity n m k)
  let loss_1 : ℝ := ∑ n, ∑ m, (1 - sigmoid n m n)
  let sigmoid_zeroed : Sim N M := fun n m k => if k = n then 0 else sigmoid n m k
  let loss_2 : ℝ := ∑ n, ∑ m, torchMax (fun k => sigmoid_zeroed n m k)
  loss_1 + loss_2

/-- `get_softmax_loss`:
`torch.sum(log(Σ_k exp(S) + 1e-6)) - torch.sum(S[diag])`. -/
def get_softmax_loss {N M : ℕ} (similarity : Sim N M) : ℝ :=
  (∑ n, ∑ m, Real.log ((∑ k, Real.exp (similarity n m k)) + eps1e6)) -
    ∑ n, ∑ m, similarity n m n

/-- `get_centroids`: `embeddings.mean(dim=1)` (second pipeline). -/
def get_centroids {N M D : ℕ} (embeddings : Tensor3 N M D) : Tensor2 N D :=
  fun n d => (∑ m, embeddings n m d) / (M : ℝ)

/-- `get_utterance_centroids`: `(embeddings.sum(dim=1, reshaped) - embeddings)
/ (embeddings.shape[1] - 1)` (second pipeline). -/
def get_utterance_centroids {N M D : ℕ} (embeddings : Tensor3 N M D) :
    Tensor3 N M D :=
  fun n m d => ((∑ mp, embeddings n mp d) - embeddings n m d) / ((M : ℝ) - 1)

/-- A row index of a flattened (A, B) tensor forces 0 < B. -/
lemma fin_pos_right {a b : ℕ} (r : Fin (a * b)) : 0 < b := by
  rcases Nat.eq_zero_or_pos b with hb | hb
  · exact absurd r.isLt (by simp [hb])
  · exact hb

/-- Row-major flattening index bound: a < A and b < B give a*B + b < A*B. -/
lemma flat_pair_lt {A B a b : ℕ} (ha : a < A) (hb : b < B) :
    a * B + b < A * B := by
  calc a * B + b < a * B + B := by omega
    _ = (a + 1) * B := by ring
    _ ≤ A * B := Nat.mul_le_mul_right B ha

/-- `view(N*M, -1)` of a contiguous (N, M, D) tensor: row r holds the
embedding at (r / M, r % M). -/
def flat2 {N M D : ℕ} (e : Tensor3 N M D) : Fin (N * M) → Emb D :=
  fun r =>
    e ⟨r.val / M, (Nat.div_lt_iff_lt_mul (fin_pos_right r)).mpr r.isLt⟩
      ⟨r.val % M, Nat.mod_lt _ (fin_pos_right r)⟩

/-- `get_cossim`: the second pipeline's end-to-end similarity matrix.  It
flattens embeddings and leave-one-out centroids to (N*M, D) rows, computes the
same-speaker cosine vector, tiles the centroids to (N*M*N, D) rows
(`repeat`: row s holds centroid s % N) and repeats each flattened embedding N
times (row s holds embedding row s / N), takes the rowwise cosine similarity,
views it as (N, M, N), overwrites the speaker diagonal with the same-speaker
vector, and finally adds 1e-6 to every entry. -/
def get_cossim {N M D : ℕ} (embeddings : Tensor3 N M D)
    (centroids : Tensor2 N D) : Sim N M :=
  let utterance_centroids := get_utterance_centroids embeddings
  let utterance_centroids_flat : Fin (N * M) → Emb D := flat2 utterance_centroids
  let embeddings_flat : Fin (N * M) → Emb D := flat2 embeddings
  let cos_same : Fin (N * M) → ℝ :=
    fun r => cosineSim (embeddings_flat r) (utterance_centroids_flat r)
  let centroids_expand : Fin (N * M * N) → Emb D :=
    fun s => centroids ⟨s.val % N, Nat.mod_lt _ (fin_pos_right s)⟩
  let embeddings_expand : Fin (N * M * N) → Emb D :=
    fun s =>
      embeddings_flat
        ⟨s.val / N, (Nat.div_lt_iff_lt_mul (fin_pos_right s)).mpr s.isLt⟩
  let cos_diff_flat : Fin (N * M * N) → ℝ :=
    fun s => cosineSim (embeddings_expand s) (centroids_expand s)
  let cos_diff : Sim N M :=
    fun n m k =>
      cos_diff_flat
        ⟨(n.val * M + m.val) * N + k.val,
         flat_pair_lt (flat_pair_lt n.isLt m.isLt) k.isLt⟩
  let cos_same_view : Fin N → Fin M → ℝ :=
    fun n m => cos_same ⟨n.val * M + m.val, flat_pair_lt n.isLt m.isLt⟩
  fun n m k =>
    (if k = n then cos_same_view n m else cos_diff n m k) + eps1e6

/-- Concrete all-ones embedding tensor of shape (2, 2, 1), used as a test
input. -/
def eOnes : Tensor3 2 2 1 := fun _ _ _ => 1

/-- Concrete embedding tensor of shape (1, 1, 1) (a single utterance,
M = 1). -/
def eM1 : Tensor3 1 1 1 := fun _ _ _ => 3

/-- Concrete zero similarity tensor of shape (1, 1, 1). -/
def S0 : Sim 1 1 := fun _ _ _ => 0

/-- Concrete diagonal tensor of shape (1, 1) with value 1. -/
def d0 : Fin 1 → Fin 1 → ℝ := fun _ _ => 1

/-- Concrete zero similarity tensor of shape (2, 1, 2). -/
def S1 : Sim 2 1 := fun _ _ _ => 0

/-- Concrete diagonal tensor of shape (2, 1) with value 1. -/
def d1 : Fin 2 → Fin 1 → ℝ := fun _ _ => 1

/-- Index arithmetic for row-major flattening: the quotient recovers the
outer index. -/
lemma div_flat {a b B : ℕ} (hb : b < B) : (a * B + b) / B = a := by
  rw [Nat.mul_comm a B, Nat.mul_add_div (by omega : 0 < B),
    Nat.div_eq_of_lt hb, Nat.add_zero]

/-- Index arithmetic for row-major flattening: the remainder recovers the
inner index. -/
lemma mod_flat {a b B : ℕ} (hb : b < B) : (a * B + b) % B = b := by
  rw [Nat.mul_comm a B, Nat.mul_add_mod, Nat.mod_eq_of_lt hb]

/-- Applying a rank-3 tensor at anonymous-constructor indices with known
values. -/
lemma tensor3_apply_mk {N M D : ℕ} (e : Tensor3 N M D) (a : ℕ) (ha : a < N)
    (b : ℕ) (hb : b < M) (n : Fin N) (m : Fin M)
    (h1 : a = n.val) (h2 : b = m.val) : e ⟨a, ha⟩ ⟨b, hb⟩ = e n m := by
  subst h1; subst h2
  rw [Fin.eta, Fin.eta]

/-- Applying a rank-2 tensor at an anonymous-constructor index with known
value. -/
lemma tensor2_apply_mk {N D : ℕ} (c : Tensor2 N D) (a : ℕ) (ha : a < N)
    (k : Fin N) (h : a = k.val) : c ⟨a, ha⟩ = c k := by
  subst h
  rw [Fin.eta]

/-- Evaluating `flat2` at the row index of a given (speaker, utterance)
pair recovers the original entry. -/
lemma flat2_apply {N M D : ℕ} (e : Tensor3 N M D) (n : Fin N) (m : Fin M)
    (r : Fin (N * M)) (hr : r.val = n.val * M + m.val) : flat2 e r = e n m := by
  have hdiv : r.val / M = n.val := by rw [hr]; exact div_flat m.isLt
  have hmod : r.val % M = m.val := by rw [hr]; exact mod_flat m.isLt
  unfold flat2
  exact tensor3_apply_mk e _ _ _ _ n m hdiv hmod

/-- The logistic sigmoid is strictly positive. -/
lemma sigmoidR_pos (x : ℝ) : 0 < sigmoidR x := by
  unfold sigmoidR
  positivity

/-- For N ≥ 2 the set of impostor speakers is non-empty. -/
lemma erase_univ_nonempty {N : ℕ} (hN : 2 ≤ N) (n : Fin N) :
    ((Finset.univ : Finset (Fin N)).erase n).Nonempty := by
  rw [← Finset.card_pos, Finset.card_erase_of_mem (Finset.mem_univ n),
    Finset.card_univ, Fintype.card_fin]
  omega

/-- Zeroing one entry of a positive family and taking `torchMax` over the
whole index set equals the max over the remaining entries. -/
lemma torchMax_zero_diag {N : ℕ} (hN : 2 ≤ N) (n : Fin N) (f : Fin N → ℝ)
    (hf : ∀ k, 0 < f k) :
    torchMax (fun k => if k = n then 0 else f k) =
      (Finset.univ.erase n).sup' (erase_univ_nonempty hN n) f := by
  have h0 : 0 < N := by omega
  unfold torchMax
  rw [dif_pos h0]
  apply le_antisymm
  · apply Finset.sup'_le
    intro k _
    by_cases hk : k = n
    · rw [if_pos hk]
      obtain ⟨k0, hk0⟩ := erase_univ_nonempty hN n
      exact le_trans (hf k0).le (Finset.le_sup' f hk0)
    · rw [if_neg hk]
      exact Finset.le_sup' f (Finset.mem_erase.mpr ⟨hk, Finset.mem_univ k⟩)
  · apply Finset.sup'_le
    intro k hk
    have hkn : k ≠ n := (Finset.mem_erase.mp hk).1
    have hfk : f k = (fun k => if k = n then 0 else f k) k := by simp [hkn]
    rw [hfk]
    exact Finset.le_sup' (fun k => if k = n then 0 else f k) (Finset.mem_univ k)

/-- Cauchy-Schwarz for the embedded dot product and norm. -/
lemma dotp_le_norm {D : ℕ} (u v : Emb D) : dotp u v ≤ l2norm u * l2norm v := by
  unfold dotp l2norm
  have h := Real.sum_mul_le_sqrt_mul_sqrt (Finset.univ : Finset (Fin D)) u v
  simpa [pow_two] using h

/-- Cauchy-Schwarz, lower side. -/
lemma neg_dotp_le_norm {D : ℕ} (u v : Emb D) :
    -dotp u v ≤ l2norm u * l2norm v := by
  have h := dotp_le_norm (fun d => -u d) v
  simp only [l2norm, dotp] at h ⊢
  simpa [neg_mul, neg_mul_neg, Finset.sum_neg_distrib] using h

/-- The embedded `F.cosine_similarity` always lies in [-1, 1]. -/
lemma cosineSim_mem_Icc {D : ℕ} (u v : Emb D) :
    -1 ≤ cosineSim u v ∧ cosineSim u v ≤ 1 := by
  unfold cosineSim
  have heps : (0 : ℝ) < cosEps := by norm_num [cosEps]
  have hden : 0 < max (l2norm u * l2norm v) cosEps :=
    lt_of_lt_of_le heps (le_max_right _ _)
  constructor
  · rw [le_div_iff₀ hden]
    have h1 := neg_dotp_le_norm u v
    have h2 := le_max_left (l2norm u * l2norm v) cosEps
    linarith
  · rw [div_le_one hden]
    exact le_trans (dotp_le_norm u v) (le_max_left _ _)

/-- C1: for an (N, M, D) embedding tensor with N ≥ 2 and M ≥ 2,
`get_similarity` has entry [j, i, k] equal to the cosine similarity between
embedding[j, i] and the include-self centroid of speaker k when k ≠ j, and
equal to the cosine similarity between embedding[j, i] and the leave-one-out
centroid for utterance (j, i) when k = j. -/
theorem getSimilarity_entries {N M D : ℕ} (e : Tensor3 N M D)
    (hN : 2 ≤ N) (hM : 2 ≤ M) (j k : Fin N) (i : Fin M) :
    (k ≠ j → get_similarity e j i k =
      cosineSim (e j i) (calculate_centroid_include_self e k)) ∧
    (k = j → get_similarity e j i k =
      cosineSim (e j i) (calculate_centroid_exclude_self e j i)) := by
  constructor
  · intro hk
    simp [get_similarity, combine_similarity, calculate_similarity, hk]
  · intro hk
    subst hk
    simp [get_similarity, combine_similarity, calculate_similarity_j_equal_k]

/-- C1 witness: the theorem instantiated on the concrete (2, 2, 1) all-ones
tensor at an off-diagonal and a diagonal entry. -/
theorem getSimilarity_entries_witness :
    get_similarity eOnes 0 0 1 =
      cosineSim (eOnes 0 0) (calculate_centroid_include_self eOnes 1) ∧
    get_similarity eOnes 0 0 0 =
      cosineSim (eOnes 0 0) (calculate_centroid_exclude_self eOnes 0 0) :=
  ⟨(getSimilarity_entries eOnes (by decide) (by decide) 0 1 0).1 (by decide),
   (getSimilarity_entries eOnes (by decide) (by decide) 0 0 0).2 rfl⟩

/-- C2 (amended): `combine_similarity` leaves every off-diagonal entry of the
similarity tensor unchanged and sets entry [n, i, n] to diagonal[n, i], but
the update is an in-place indexed assignment: the returned tensor is the
argument tensor mutated, so after the call the caller's tensor holds the
combined values, not its original ones. -/
theorem combine_similarity_spec {N M : ℕ} (S : Sim N M)
    (d : Fin N → Fin M → ℝ) :
    (∀ (j : Fin N) (i : Fin M) (k : Fin N), k ≠ j →
      combine_similarity S d j i k = S j i k) ∧
    (∀ (n : Fin N) (i : Fin M), combine_similarity S d n i n = d n i) ∧
    (combine_similarity_state S d).2 = combine_similarity S d := by
  refine ⟨?_, ?_, rfl⟩
  · intro j i k hk
    simp [combine_similarity, hk]
  · intro n i
    simp [combine_similarity]

/-- C2 counterexample: on the concrete (1, 1, 1) input, after the call the
input tensor no longer holds its original value at [0, 0, 0] — the in-place
assignment has overwritten it with the diagonal value. -/
theorem combine_similarity_mutates :
    (combine_similarity_state S0 d0).2 0 0 0 ≠ S0 0 0 0 := by
  norm_num [combine_similarity_state, combine_similarity, S0, d0]

/-- C2 witness: the amended theorem instantiated on a concrete (2, 1, 2)
similarity tensor and (2, 1) diagonal. -/
theorem combine_similarity_spec_witness :
    combine_similarity S1 d1 0 0 1 = S1 0 0 1 ∧
    combine_similarity S1 d1 0 0 0 = d1 0 0 ∧
    (combine_similarity_state S1 d1).2 = combine_similarity S1 d1 :=
  ⟨(combine_similarity_spec S1 d1).1 0 0 1 (by decide),
   (combine_similarity_spec S1 d1).2.1 0 0,
   (combine_similarity_spec S1 d1).2.2⟩

/-- C3: for M ≥ 2 the exclude-self centroid at (n, m) equals
(sum over utterances − this utterance) / (M − 1), which is the mean of the
other M − 1 utterance embeddings of speaker n. -/
theorem centroid_exclude_self_spec {N M D : ℕ} (e : Tensor3 N M D)
    (hM : 2 ≤ M) (n : Fin N) (m : Fin M) (d : Fin D) :
    calculate_centroid_exclude_self e n m d =
      ((∑ mp, e n mp d) - e n m d) / ((M : ℝ) - 1) ∧
    calculate_centroid_exclude_self e n m d =
      (∑ mp ∈ Finset.univ.erase m, e n mp d) / ((M : ℝ) - 1) := by
  constructor
  · rfl
  · unfold calculate_centroid_exclude_self
    rw [Finset.sum_erase_eq_sub (Finset.mem_univ m)]

/-- C3 witness: the theorem instantiated on the concrete (2, 2, 1) all-ones
tensor. -/
theorem centroid_exclude_self_spec_witness :
    calculate_centroid_exclude_self eOnes 0 0 0 =
      ((∑ mp, eOnes 0 mp 0) - eOnes 0 0 0) / (((2 : ℕ) : ℝ) - 1) ∧
    calculate_centroid_exclude_self eOnes 0 0 0 =
      (∑ mp ∈ Finset.univ.erase 0, eOnes 0 mp 0) / (((2 : ℕ) : ℝ) - 1) :=
  centroid_exclude_self_spec eOnes (by decide) 0 0 0

/-- C5: `get_softmax_loss` equals the sum over (n, m) of
log(Σ_k exp(S[n,m,k]) + 1e-6) − S[n,m,n], summed, not averaged, with the
epsilon inside the logarithm. -/
theorem get_softmax_loss_spec {N M : ℕ} (S : Sim N M) :
    get_softmax_loss S =
      ∑ n, ∑ m,
        (Real.log ((∑ k, Real.exp (S n m k)) + eps1e6) - S n m n) := by
  simp [get_softmax_loss, Finset.sum_sub_distrib]

/-- C6 counterexample: at the concrete (1, 1, 1) input with constant value 3,
`calculate_centroid_exclude_self` does not raise anything: it returns a
tensor, whose sole entry is the value of the division (3 − 3) / (1 − 1)
(a NaN in PyTorch float semantics, 0 under the embedding's total-division
convention) — contradicting the claim that no output tensor is produced. -/
theorem centroid_exclude_self_M1_returns :
    calculate_centroid_exclude_self eM1 0 0 0 =
      ((3 : ℝ) - 3) / ((1 : ℝ) - 1) := by
  norm_num [calculate_centroid_exclude_self, eM1]

/-- C6 (amended): `calculate_centroid_exclude_self` has no error path: for
every M — including M = 1, where the denominator (M : ℝ) − 1 is zero — it
performs the same elementwise division and returns a tensor of shape
(N, M, D). -/
theorem centroid_exclude_self_total {N M D : ℕ} (e : Tensor3 N M D)
    (n : Fin N) (m : Fin M) (d : Fin D) :
    calculate_centroid_exclude_self e n m d =
      ((∑ mp, e n mp d) - e n m d) / ((M : ℝ) - 1) := rfl

/-- C7: `get_similarity_eva` has entry [n, m, k] equal to the cosine
similarity between evaluation embedding (n, m) and the include-self centroid
of the enrollment utterances of speaker k, for every k, including k = n —
no leave-one-out correction is applied. -/
theorem get_similarity_eva_spec {N M1 M2 D : ℕ} (enr : Tensor3 N M1 D)
    (ev : Tensor3 N M2 D) (n : Fin N) (m : Fin M2) (k : Fin N) :
    get_similarity_eva enr ev n m k =
      cosineSim (ev n m) (calculate_centroid_include_self enr k) := rfl

/-- C9: `get_similarity` is deterministic — two calls on equal input tensors
give entrywise equal outputs. -/
theorem get_similarity_deterministic {N M D : ℕ} (e1 e2 : Tensor3 N M D)
    (hN : 2 ≤ N) (hM : 2 ≤ M) (h : e1 = e2) :
    ∀ (j : Fin N) (i : Fin M) (k : Fin N),
      get_similarity e1 j i k = get_similarity e2 j i k := by
  subst h
  intro j i k
  rfl

/-- C9 witness: determinism instantiated on the concrete (2, 2, 1) all-ones
tensor. -/
theorem get_similarity_deterministic_witness :
    get_similarity eOnes 0 0 1 = get_similarity eOnes 0 0 1 :=
  get_similarity_deterministic eOnes eOnes (by decide) (by decide) rfl 0 0 1

/-- C4: for N ≥ 2, `get_contrast_loss` equals
Σ_{n,m} (1 − σ(S[n,m,n])) + Σ_{n,m} max over k ≠ n of σ(S[n,m,k]): the max
ranges over the impostor columns only, and the first sum uses the unmodified
sigmoid values (the diagonal is zeroed only after loss_1 is extracted). -/
theorem get_contrast_loss_spec {N M : ℕ} (S : Sim N M) (hN : 2 ≤ N) :
    get_contrast_loss S =
      (∑ n, ∑ m, (1 - sigmoidR (S n m n))) +
        ∑ n, ∑ m,
          (Finset.univ.erase n).sup' (erase_univ_nonempty hN n)
            (fun k => sigmoidR (S n m k)) := by
  rw [show get_contrast_loss S =
      (∑ n, ∑ m, (1 - sigmoidR (S n m n))) +
        ∑ n, ∑ m,
          torchMax (fun k => if k = n then 0 else sigmoidR (S n m k))
    from rfl]
  congr 1
  apply Finset.sum_congr rfl
  intro n _
  apply Finset.sum_congr rfl
  intro m _
  exact torchMax_zero_diag hN n (fun k => sigmoidR (S n m k))
    (fun k => sigmoidR_pos _)

/-- C4 witness: the theorem instantiated on the concrete zero similarity
tensor of shape (2, 1, 2). -/
theorem get_contrast_loss_spec_witness :
    get_contrast_loss S1 =
      (∑ n, ∑ m, (1 - sigmoidR (S1 n m n))) +
        ∑ n, ∑ m,
          (Finset.univ.erase n).sup' (erase_univ_nonempty (by decide) n)
            (fun k => sigmoidR (S1 n m k)) :=
  get_contrast_loss_spec S1 (by decide)

/-- C8: for an (N, M, D) embedding tensor with N ≥ 2, M ≥ 2 whose utterance
embeddings and derived centroids all have non-zero norm, every entry of
`get_similarity` lies in [-1, 1]. -/
theorem get_similarity_range {N M D : ℕ} (e : Tensor3 N M D)
    (hN : 2 ≤ N) (hM : 2 ≤ M)
    (hemb : ∀ (j : Fin N) (i : Fin M), l2norm (e j i) ≠ 0)
    (hinc : ∀ k : Fin N, l2norm (calculate_centroid_include_self e k) ≠ 0)
    (hexc : ∀ (j : Fin N) (i : Fin M),
      l2norm (calculate_centroid_exclude_self e j i) ≠ 0)
    (j : Fin N) (i : Fin M) (k : Fin N) :
    -1 ≤ get_similarity e j i k ∧ get_similarity e j i k ≤ 1 := by
  unfold get_similarity combine_similarity calculate_similarity
    calculate_similarity_j_equal_k
  by_cases h : k = j
  · rw [if_pos h]
    exact cosineSim_mem_Icc _ _
  · rw [if_neg h]
    exact cosineSim_mem_Icc _ _

/-- C8 witness: the theorem instantiated on the concrete (2, 2, 1) all-ones
tensor, whose embeddings and centroids all have norm 1. -/
theorem get_similarity_range_witness :
    (∀ (j : Fin 2) (i : Fin 2), l2norm (eOnes j i) ≠ 0) ∧
    (-1 ≤ get_similarity eOnes 0 0 1 ∧ get_similarity eOnes 0 0 1 ≤ 1) := by
  have h1 : ∀ (j : Fin 2) (i : Fin 2), l2norm (eOnes j i) ≠ 0 := by
    intro j i
    simp [l2norm, dotp, eOnes]
  have h2 : ∀ k : Fin 2,
      l2norm (calculate_centroid_include_self eOnes k) ≠ 0 := by
    intro k
    norm_num [l2norm, dotp, calculate_centroid_include_self, eOnes,
      Fin.sum_univ_two]
  have h3 : ∀ (j : Fin 2) (i : Fin 2),
      l2norm (calculate_centroid_exclude_self eOnes j i) ≠ 0 := by
    intro j i
    norm_num [l2norm, dotp, calculate_centroid_exclude_self, eOnes,
      Fin.sum_univ_two]
  exact ⟨h1, get_similarity_range eOnes (by norm_num) (by norm_num)
    h1 h2 h3 0 0 1⟩

/-- C10: the two independent pipelines agree — `get_centroids` equals
`calculate_centroid_include_self`, `get_utterance_centroids` equals
`calculate_centroid_exclude_self`, and `get_cossim` applied to the embeddings
and their speaker centroids equals `get_similarity` with 1e-6 added to every
entry. -/
theorem pipelines_agree {N M D : ℕ} (e : Tensor3 N M D)
    (hN : 2 ≤ N) (hM : 2 ≤ M) :
    get_centroids e = calculate_centroid_include_self e ∧
    get_utterance_centroids e = calculate_centroid_exclude_self e ∧
    ∀ (j : Fin N) (i : Fin M) (k : Fin N),
      get_cossim e (get_centroids e) j i k =
        get_similarity e j i k + eps1e6 := by
  refine ⟨rfl, rfl, ?_⟩
  intro j i k
  dsimp only [get_cossim]
  congr 1
  by_cases hkj : k = j
  · rw [if_pos hkj]
    rw [flat2_apply e j i _ rfl,
      flat2_apply (get_utterance_centroids e) j i _ rfl]
    subst hkj
    simp only [get_similarity, combine_similarity,
      calculate_similarity_j_equal_k, if_pos]
    rfl
  · rw [if_neg hkj]
    rw [flat2_apply e j i _ (div_flat k.isLt),
      tensor2_apply_mk (get_centroids e) _ _ k (mod_flat k.isLt)]
    simp only [get_similarity, combine_similarity, calculate_similarity,
      if_neg hkj]
    rfl

/-- C10 witness: the pipeline agreement instantiated on the concrete
(2, 2, 1) all-ones tensor. -/
theorem pipelines_agree_witness :
    get_centroids eOnes = calculate_centroid_include_self eOnes ∧
    get_utterance_centroids eOnes = calculate_centroid_exclude_self eOnes ∧
    ∀ (j : Fin 2) (i : Fin 2) (k : Fin 2),
      get_cossim eOnes (get_centroids eOnes) j i k =
        get_similarity eOnes j i k + eps1e6 :=
  pipelines_agree eOnes (by decide) (by decide)

end

end VCUtils
